import Mathlib

/-!
Verification of the checkmate job runner (src/lib.rs, src/command.rs).

The development shallowly embeds the data model (`Script`, `Task`, `Job`),
the resolution/launch path (`Script.try_into_runner`, `Task.into_runners`,
`Job.run`) as a trace of launch-time events, the local process supervisor
loop of `CommandRunner::from_command` as a deterministic tick function over
an explicit state, and the remote (ssh) execution path of
`CommandRunner::from_command_ssh` as its value-level outcome.  Machine
re-reads of the Rust source back every definition.
-/

deriving instance DecidableEq for Except

namespace Checkmate

/-- Bytes of process output are modelled as natural numbers. -/
abbrev Byte := Nat

/-- Mirrors `enum Destination` in src/lib.rs: local machine or remote host. -/
inductive Destination
  | localhost
  | remote (host : String)
deriving DecidableEq, Repr

/-- Mirrors `enum Environment` in src/lib.rs: the env-variable policy. -/
inductive Environment
  | noEnv
  | current
deriving DecidableEq, Repr

/-- Mirrors `enum Shell` in src/lib.rs. -/
inductive Shell
  | bash
  | custom (path : String)
deriving DecidableEq, Repr

/-- Mirrors `struct Script` in src/lib.rs. -/
structure Script where
  name : String
  destination : Destination
  environment : Environment
  shell : Shell
  script : String
deriving DecidableEq, Repr

/-- Mirrors `enum Task` in src/lib.rs: one script or an ordered chain. -/
inductive Task
  | script (s : Script)
  | serial (ss : List Script)
deriving DecidableEq, Repr

/-- Mirrors `struct Job` in src/lib.rs. -/
structure Job where
  name : String
  tasks : List Task
deriving DecidableEq, Repr

/-- Mirrors `Shell::path` (src/lib.rs lines 221-228): both arms return `Ok`. -/
def Shell.path : Shell → Except String String
  | .bash => .ok "bash"
  | .custom x => .ok x

/-- Mirrors `Environment::with_shell` (src/lib.rs lines 212-219): the match on
`self` returns `Ok(shell.path()?)` in the `None` arm and in the wildcard arm. -/
def Environment.with_shell (e : Environment) (sh : Shell) : Except String String :=
  match e with
  | .noEnv => sh.path
  | _ => sh.path

/-- Mirrors `PathBuf::set_extension("sh")` on a file name that never starts
with a dot: replace the part after the last dot, or append ".sh". -/
def setExtSh (stem : String) : String :=
  match stem.splitOn "." with
  | [x] => x ++ ".sh"
  | xs => String.intercalate "." xs.dropLast ++ ".sh"

/-- Mirrors the path built by `Script::write_script` (src/lib.rs lines
169-178): `temp_dir()/checkmate_<name>` with extension set to `sh`. -/
def Script.write_script_path (s : Script) (tmpDir : String) : String :=
  tmpDir ++ "/" ++ setExtSh ("checkmate_" ++ s.name)

/-- The observable shape of the `std::process::Command` built by
`Script::try_into_runner` for a local script (src/lib.rs lines 182-189).
The code never calls `env_clear`/`env`/`envs`, so those fields are fixed. -/
structure LocalCommand where
  program : String
  args : List String
  envCleared : Bool
  envOverrides : List (String × String)
  stdoutPiped : Bool
  stderrPiped : Bool
deriving DecidableEq, Repr

/-- Mirrors the local arm of `Script::try_into_runner` (src/lib.rs lines
182-190): program is `environment.with_shell(shell)?`, single argument is
the written script path, both output streams piped, environment untouched. -/
def Script.localCommand (s : Script) (tmpDir : String) : Except String LocalCommand := do
  let prog ← s.environment.with_shell s.shell
  pure { program := prog
         args := [s.write_script_path tmpDir]
         envCleared := false
         envOverrides := []
         stdoutPiped := true
         stderrPiped := true }

/-- Mirrors the remote invocation string of `Script::try_into_runner`
(src/lib.rs lines 191-206): `format!("{} {}", shell, script)` where the
script path is `/tmp/<file_name>` as produced by `write_remote_script`. -/
def Script.remoteInvocation (s : Script) : Except String String :=
  match s.destination with
  | .localhost => .error "Not actually a remote call"
  | .remote _ => do
    let shell ← s.environment.with_shell s.shell
    pure (shell ++ " " ++ ("/tmp/" ++ setExtSh ("checkmate_" ++ s.name)))

/-- Outcome of running a fragment of the launching thread: a value, a panic
(Rust `expect` firing, which aborts the calling thread and with it
`Job::run`), or a recoverable `Err` (anyhow error carried in a `Result`). -/
inductive Outcome (α : Type)
  | ok (a : α)
  | fatal (msg : String)
  | err (msg : String)
deriving DecidableEq, Repr

/-- A progress handle produced by resolution, tagged with its script. -/
structure Runner where
  script : Script
deriving DecidableEq, Repr

/-- The external outcomes the launching code can encounter: whether a local
spawn succeeds and whether the `scp` upload subprocess exits successfully. -/
structure LaunchEnv where
  spawnOk : Script → Bool
  scpOk : Script → Bool

/-- Events emitted on the thread that calls `Job::run`, in program order:
writing the temp script, blocking on a child process (`scp ... .status()`),
spawning the local child (`cmd.spawn()`), spawning a supervisor thread, and
blocking until some handle reports completion.  The source never emits
`waitCompletion`; it is in the alphabet so the sequencing claims of the
spec can be stated over the same traces. -/
inductive Event
  | writeScript (name : String)
  | waitChild (program : String)
  | spawnLocal (name : String)
  | spawnThread (name : String)
  | waitCompletion (name : String)
deriving DecidableEq, Repr

/-- True exactly on `waitCompletion` events. -/
def Event.isWaitCompletion : Event → Bool
  | .waitCompletion _ => true
  | _ => false

/-- True on events that block the calling thread on a child process or on a
handle's completion. -/
def Event.blocks : Event → Bool
  | .waitChild _ => true
  | .waitCompletion _ => true
  | _ => false

/-- Mirrors `Script::try_into_runner` (src/lib.rs lines 180-209) together
with the synchronous part of `CommandRunner::from_command` /
`from_command_ssh`: the events the launching thread performs and the
outcome.  Local: write the script, spawn the child (`expect` panics on
failure), spawn the supervisor thread.  Remote: write the script, block on
the `scp` upload child; on upload failure return the `anyhow` error, else
spawn the background thread (the ssh connect happens inside it). -/
def Script.launch (env : LaunchEnv) (s : Script) : List Event × Outcome Runner :=
  match s.destination with
  | .localhost =>
    if env.spawnOk s then
      ([.writeScript s.name, .spawnLocal s.name, .spawnThread s.name], .ok ⟨s⟩)
    else
      ([.writeScript s.name], .fatal "Failed to spawn command")
  | .remote host =>
    if env.scpOk s then
      ([.writeScript s.name, .waitChild "scp", .spawnThread s.name], .ok ⟨s⟩)
    else
      ([.writeScript s.name, .waitChild "scp"], .err ("Failed to upload script to " ++ host))

/-- Mirrors the eager in-order `map(...).collect()` of `Task::into_runners`
with its `.expect("Failed to make runner")`: each script is launched in
declaration order; an `Err` from `try_into_runner` is turned into a panic,
and a panic aborts the iteration (later scripts are not launched). -/
def launchAll (env : LaunchEnv) : List Script → List Event × Outcome (List Runner)
  | [] => ([], .ok [])
  | s :: rest =>
    match s.launch env with
    | (ev, .ok r) =>
      match launchAll env rest with
      | (ev2, .ok rs) => (ev ++ ev2, .ok (r :: rs))
      | (ev2, .fatal m) => (ev ++ ev2, .fatal m)
      | (ev2, .err m) => (ev ++ ev2, .err m)
    | (ev, .fatal m) => (ev, .fatal m)
    | (ev, .err _) => (ev, .fatal "Failed to make runner")

/-- The scripts of a task in declaration order. -/
def Task.scripts : Task → List Script
  | .script s => [s]
  | .serial ss => ss

/-- Mirrors `Task::into_runners` (src/lib.rs lines 87-95): the `Script`
variant launches its single script, the `Serial` variant launches every
script of the chain immediately, in declaration order. -/
def Task.into_runners (env : LaunchEnv) : Task → List Event × Outcome (List Runner)
  | .script s => launchAll env [s]
  | .serial ss => launchAll env ss

/-- Mirrors the per-task loop of `Job::run` (src/lib.rs lines 36-48): tasks
are resolved in order on the calling thread; a panic propagates. -/
def runTasks (env : LaunchEnv) : List Task → List Event × Outcome (List (Task × List Runner))
  | [] => ([], .ok [])
  | t :: ts =>
    match t.into_runners env with
    | (ev, .ok rs) =>
      match runTasks env ts with
      | (ev2, .ok threads) => (ev ++ ev2, .ok ((t, rs) :: threads))
      | (ev2, .fatal m) => (ev ++ ev2, .fatal m)
      | (ev2, .err m) => (ev ++ ev2, .err m)
    | (ev, .fatal m) => (ev, .fatal m)
    | (ev, .err m) => (ev, .err m)

/-- Mirrors `Job::run` (src/lib.rs lines 36-48). -/
def Job.run (env : LaunchEnv) (j : Job) : List Event × Outcome (List (Task × List Runner)) :=
  runTasks env j.tasks

/-- The claim of spec §4.4 as stated: the `Job::run` call never blocks on
any child process and never waits for any handle to reach completion. -/
def runNeverBlocks (env : LaunchEnv) (j : Job) : Prop :=
  ∀ e ∈ (j.run env).1, e.blocks = false

instance (env : LaunchEnv) (j : Job) : Decidable (runNeverBlocks env j) :=
  List.decidableBAll _ _

/-- Whether the trace launches `b` only after observing completion of `a`:
if `b` is spawned at index `j`, some `waitCompletion a` occurs at an
earlier index. -/
def launchedSequentially (tr : List Event) (a b : String) : Bool :=
  match tr.indexOf? (Event.spawnLocal b) with
  | none => true
  | some j =>
    match tr.indexOf? (Event.waitCompletion a) with
    | none => false
    | some i => decide (i < j)

/-!  Local process supervisor: the polling loop spawned by
`CommandRunner::from_command` (src/command.rs lines 35-87).  -/

/-- The raw result of the underlying OS wait when the child's exit status
is not yet cached: the child exited with a code, is still running, or the
wait itself failed. -/
inductive WaitRaw
  | exited (code : Nat)
  | running
  | osError
deriving DecidableEq, Repr

/-- One tick's external input: the raw OS wait outcome plus whatever bytes
the child has newly written to its stdout/stderr pipes since last tick. -/
structure TickInput where
  raw : WaitRaw
  newOut : List Byte
  newErr : List Byte
deriving DecidableEq, Repr

/-- The supervisor state: the `Child`'s cached exit status (Rust's
`Child::try_wait` caches the status once the child is reaped and afterwards
returns it without consulting the OS), the bytes still unread in each pipe,
and the four shared fields of `CommandRunner`. -/
structure LocalState where
  cached : Option Nat
  outAvail : List Byte
  errAvail : List Byte
  stdout : List Byte
  stderr : List Byte
  status : Option Nat
  complete : Except String Bool
deriving DecidableEq, Repr

/-- The shared state as `CommandRunner::from_command` initialises it:
empty buffers, no status, `Ok(false)`. -/
def initLocal : LocalState :=
  { cached := none, outAvail := [], errAvail := [], stdout := [], stderr := []
    status := none, complete := .ok false }

/-- Mirrors `Child::try_wait`: a cached status is returned as
`Ok(Some(status))` without consulting the OS; otherwise the raw OS result
is returned and a fresh exit status is cached. -/
def tryWait (cached : Option Nat) (raw : WaitRaw) : Option Nat × Except String (Option Nat) :=
  match cached with
  | some c => (some c, .ok (some c))
  | none =>
    match raw with
    | .exited c => (some c, .ok (some c))
    | .running => (none, .ok none)
    | .osError => (none, .error "os error")

/-- Loop control of the supervisor body.  The `loop` in
`CommandRunner::from_command` contains no `break` or `return`, so falling
through to the sleep and re-entering is the body's only way to end. -/
inductive LoopCtl
  | next
deriving DecidableEq, Repr

/-- What one execution of the loop body did: whether it read stdout,
whether it wrote the `status` field, whether it wrote the `complete` field,
and how it left the loop. -/
structure TickEff where
  readStdout : Bool
  wroteStatus : Bool
  wroteComplete : Bool
  ctl : LoopCtl
deriving DecidableEq, Repr

/-- The read/append sequence shared by the `Ok(Some)` and `Ok(None)` arms
(src/command.rs lines 42-56 and 62-76).  Stdout: one `read` into a fresh
1024-byte buffer, appending the `len` bytes read.  Stderr: the `read` is
given `&mut *stderr_bg.lock()` — the shared vector itself — as destination,
so at most `stderr.length` bytes are read (overwriting the vector's first
`len` bytes), after which `len` bytes of the untouched zeroed buffer are
appended. -/
def drainOnce (st : LocalState) : LocalState :=
  let outRead := st.outAvail.take 1024
  let st1 := { st with stdout := st.stdout ++ outRead, outAvail := st.outAvail.drop 1024 }
  let len := min st1.stderr.length st1.errAvail.length
  { st1 with
    stderr := (st1.errAvail.take len ++ st1.stderr.drop len) ++ List.replicate len 0
    errAvail := st1.errAvail.drop len }

/-- One iteration of the supervisor loop (src/command.rs lines 39-86):
newly produced output becomes available, `try_wait` is consulted; on
`Ok(Some(status))` one bounded drain happens and then `status` and
`complete = Ok(true)` are (re-)written; on `Ok(None)` only the drain
happens; on `Err` the `complete` field is overwritten with the error.
Every arm falls through to the 100 ms sleep and continues. -/
def localTick (st : LocalState) (inp : TickInput) : LocalState × TickEff :=
  let st0 := { st with outAvail := st.outAvail ++ inp.newOut
                       errAvail := st.errAvail ++ inp.newErr }
  let wr := tryWait st0.cached inp.raw
  let st1 := { st0 with cached := wr.1 }
  match wr.2 with
  | .ok (some c) =>
    let st2 := drainOnce st1
    ({ st2 with status := some c, complete := .ok true },
     { readStdout := true, wroteStatus := true, wroteComplete := true, ctl := .next })
  | .ok none =>
    (drainOnce st1,
     { readStdout := true, wroteStatus := false, wroteComplete := false, ctl := .next })
  | .error _ =>
    ({ st1 with complete := .error "Failed to complete async command" },
     { readStdout := false, wroteStatus := false, wroteComplete := true, ctl := .next })

/-- Runs the supervisor loop over a list of tick inputs. -/
def localRun (st : LocalState) : List TickInput → LocalState
  | [] => st
  | i :: is => localRun (localTick st i).1 is

/-- Mirrors the accessor `CommandRunner::complete` (src/command.rs lines
178-183): `Ok(x)` yields `x`, an error is reported as `false`. -/
def completeObs : Except String Bool → Bool
  | .ok x => x
  | .error _ => false

/-- The invariant tying the observable completion flag to the child's
cached exit status. -/
def LocalInv (st : LocalState) : Prop :=
  st.complete = .ok true → st.cached.isSome

/-!  Remote execution: `CommandRunner::from_command_ssh`
(src/command.rs lines 97-176).  -/

/-- Effects of the `Ok` arm of `child.wait().await` in program order
(src/command.rs lines 153-159, then line 166): write the status, write
`complete = Ok(true)`, abort the stdout drain task, abort the stderr drain
task, then `try_join!` both (their results discarded).  No flush of the
streams occurs anywhere in the arm. -/
inductive SshEffect
  | setStatus
  | setComplete
  | abortDrain
  | joinDrains
deriving DecidableEq, Repr

/-- The effect order of the successful wait arm, straight from the source. -/
def sshWaitOkEffects : List SshEffect :=
  [.setStatus, .setComplete, .abortDrain, .abortDrain, .joinDrains]

/-- Everything one drain task of `from_command_ssh` ever appends to its
shared buffer (src/command.rs lines 130-151): it performs a single
`read` into a fresh zeroed 1024-byte buffer — at most 1024 bytes — and then
`extend_from_slice(&buffer)` appends the whole buffer, read bytes followed
by the remaining zeros.  The task then finishes; it never reads again. -/
def sshDrainAppend (avail : List Byte) : List Byte :=
  avail.take 1024 ++ List.replicate (1024 - min 1024 avail.length) 0

/-- The shared state of a remote `CommandRunner` after its background
thread ends, plus whether that thread panicked. -/
structure RemoteState where
  stdout : List Byte
  stderr : List Byte
  status : Option Nat
  complete : Except String Bool
  threadPanicked : Bool
deriving DecidableEq, Repr

/-- Value-level outcome of the thread body of `from_command_ssh`, giving
the drain tasks maximal progress (each completes its single read of the
available bytes before termination — the case most favourable to output
delivery).  A failed `connect_mux` hits `expect`: the background thread
panics with the shared state still in its initial configuration
(`complete = Ok(false)`, no status).  Otherwise the wait arm writes status
and completion (`Ok(true)` on success, the error otherwise). -/
def sshRun (connectOk : Bool) (producedOut producedErr : List Byte)
    (waitRes : Except String Nat) : RemoteState :=
  if connectOk then
    let outBuf := sshDrainAppend producedOut
    let errBuf := sshDrainAppend producedErr
    match waitRes with
    | .ok c =>
      { stdout := outBuf, stderr := errBuf, status := some c
        complete := .ok true, threadPanicked := false }
    | .error _ =>
      { stdout := outBuf, stderr := errBuf, status := none
        complete := .error "Failed to complete async command", threadPanicked := false }
  else
    { stdout := [], stderr := [], status := none
      complete := .ok false, threadPanicked := true }

/-- The value of a remote handle's `complete` field over time.  The
background thread of `from_command_ssh` writes that field at most once:
`from_command_ssh` initialises it to `Ok(false)`, the wait arm
(src/command.rs lines 153-164) performs the single write — `Ok(true)` on
`Ok(status)`, the error on `Err` — and after that the block only aborts
and joins the drain tasks and the thread ends, never touching the field
again.  A failed `connect_mux` (or a failed remote spawn, which hits its
`expect` the same way) panics the thread before that write, so the field
keeps its initial value forever.  `t` counts how many of the thread's
writes to the field have executed at the observation instant, so the
field's value at any instant is `sshComplete` at the corresponding `t`. -/
def sshComplete (connectOk : Bool) (waitRes : Except String Nat) (t : Nat) :
    Except String Bool :=
  if connectOk = true ∧ 1 ≤ t then
    match waitRes with
    | .ok _ => .ok true
    | .error _ => .error "Failed to complete async command"
  else
    .ok false

/-!  Concrete inputs used by the witnesses and refutations.  -/

/-- A local script named "a". -/
def sA : Script :=
  { name := "a", destination := .localhost, environment := .current
    shell := .bash, script := "echo a" }

/-- A local script named "b". -/
def sB : Script :=
  { name := "b", destination := .localhost, environment := .current
    shell := .bash, script := "echo b" }

/-- A remote script named "r" destined for host1. -/
def sR : Script :=
  { name := "r", destination := .remote "host1", environment := .current
    shell := .bash, script := "echo r" }

/-- A local script whose interpreter cannot be spawned. -/
def sBad : Script :=
  { name := "bad", destination := .localhost, environment := .current
    shell := .custom "/nonexistent", script := "echo hi" }

/-- Environment in which every spawn and every upload succeeds. -/
def envAllOk : LaunchEnv :=
  { spawnOk := fun _ => true, scpOk := fun _ => true }

/-- Environment in which spawning the script named "bad" fails. -/
def envBadSpawn : LaunchEnv :=
  { spawnOk := fun s => s.name != "bad", scpOk := fun _ => true }

/-- A job with a failing-to-spawn script followed by a healthy sibling. -/
def jBad : Job := { name := "j", tasks := [.script sBad, .script sA] }

/-- A job with a single remote script. -/
def jRemote : Job := { name := "jr", tasks := [.script sR] }

/-- A job with a single local script. -/
def jLocal : Job := { name := "jl", tasks := [.script sA] }

/-!  Helper lemmas.  -/

/-- A successful launch yields the runner tagged with the launched script. -/
theorem launch_ok_runner (env : LaunchEnv) (s : Script) (ev : List Event) (r : Runner)
    (h : s.launch env = (ev, .ok r)) : r = ⟨s⟩ := by
  unfold Script.launch at h
  split at h <;> split at h <;> simp_all

/-- Successful resolution of a script list yields one runner per script,
in order. -/
theorem launchAll_ok_scripts (env : LaunchEnv) (ss : List Script) :
    ∀ (ev : List Event) (rs : List Runner),
      launchAll env ss = (ev, .ok rs) → rs.map Runner.script = ss := by
  induction ss with
  | nil =>
    intro ev rs h
    simp only [launchAll, Prod.mk.injEq] at h
    obtain ⟨-, h2⟩ := h
    cases h2
    rfl
  | cons s rest ih =>
    intro ev rs h
    rw [launchAll] at h
    split at h
    case h_1 ev1 r heq =>
      split at h
      case h_1 ev2 rs2 heq2 =>
        simp only [Prod.mk.injEq] at h
        obtain ⟨-, h2⟩ := h
        obtain rfl : r :: rs2 = rs := by
          cases h2
          rfl
        simp [launch_ok_runner env s ev1 r heq, ih ev2 rs2 heq2]
      case h_2 ev2 m heq2 => simp at h
      case h_3 ev2 m heq2 => simp at h
    case h_2 ev1 m heq => simp at h
    case h_3 ev1 m heq => simp at h

/-- Resolution of a task is resolution of its script list. -/
theorem into_runners_eq_launchAll (env : LaunchEnv) (t : Task) :
    t.into_runners env = launchAll env t.scripts := by
  cases t <;> rfl

/-- The launching thread of a single script never waits on a handle. -/
theorem launch_events_no_waitc (env : LaunchEnv) (s : Script) :
    ∀ e ∈ (s.launch env).1, e.isWaitCompletion = false := by
  intro e he
  unfold Script.launch at he
  split at he <;> split at he <;> fin_cases he <;> rfl

/-- The launching thread of a local script performs no blocking event. -/
theorem launch_events_local_noblock (env : LaunchEnv) (s : Script)
    (hloc : s.destination = .localhost) :
    ∀ e ∈ (s.launch env).1, e.blocks = false := by
  intro e he
  unfold Script.launch at he
  rw [hloc] at he
  split at he
  · split at he <;> fin_cases he <;> rfl
  · rename_i x host heq
    simp at heq

/-- Every event of a script-list resolution comes from one of its scripts. -/
theorem launchAll_mem_events (env : LaunchEnv) (ss : List Script) :
    ∀ e ∈ (launchAll env ss).1, ∃ s ∈ ss, e ∈ (s.launch env).1 := by
  induction ss with
  | nil => intro e he; simp [launchAll] at he
  | cons s rest ih =>
    intro e he
    rw [launchAll] at he
    split at he
    case h_1 ev1 r heq =>
      split at he
      all_goals
        rename_i ev2 _ heq2
        simp only [List.mem_append] at he
        rcases he with he | he
        · exact ⟨s, List.mem_cons_self s rest, by rw [heq]; exact he⟩
        · obtain ⟨s2, hs2, he2⟩ := ih e (by rw [heq2]; exact he)
          exact ⟨s2, List.mem_cons_of_mem s hs2, he2⟩
    case h_2 ev1 m heq =>
      exact ⟨s, List.mem_cons_self s rest, by rw [heq]; exact he⟩
    case h_3 ev1 m heq =>
      exact ⟨s, List.mem_cons_self s rest, by rw [heq]; exact he⟩

/-- Every event of a job run comes from launching one of its scripts. -/
theorem runTasks_mem_events (env : LaunchEnv) (ts : List Task) :
    ∀ e ∈ (runTasks env ts).1, ∃ t ∈ ts, ∃ s ∈ t.scripts, e ∈ (s.launch env).1 := by
  induction ts with
  | nil => intro e he; simp [runTasks] at he
  | cons t rest ih =>
    intro e he
    rw [runTasks] at he
    have fromHead : ∀ ev1 (o : Outcome (List Runner)), t.into_runners env = (ev1, o) →
        e ∈ ev1 → ∃ t2 ∈ t :: rest, ∃ s ∈ t2.scripts, e ∈ (s.launch env).1 := by
      intro ev1 o heq hmem
      have : e ∈ (launchAll env t.scripts).1 := by
        rw [← into_runners_eq_launchAll, heq]
        exact hmem
      obtain ⟨s, hs, he2⟩ := launchAll_mem_events env t.scripts e this
      exact ⟨t, List.mem_cons_self t rest, s, hs, he2⟩
    split at he
    case h_1 ev1 rs heq =>
      split at he
      all_goals
        rename_i ev2 _ heq2
        simp only [List.mem_append] at he
        rcases he with he | he
        · exact fromHead ev1 (.ok rs) heq he
        · obtain ⟨t2, ht2, s, hs, he2⟩ := ih e (by rw [heq2]; exact he)
          exact ⟨t2, List.mem_cons_of_mem t ht2, s, hs, he2⟩
    case h_2 ev1 m heq => exact fromHead ev1 (.fatal m) heq he
    case h_3 ev1 m heq => exact fromHead ev1 (.err m) heq he

/-- A tick taken with the exit status already cached re-writes `status`
and `complete` and keeps the cache. -/
theorem localTick_cached_some (st : LocalState) (inp : TickInput) (c : Nat)
    (h : st.cached = some c) :
    (localTick st inp).1.complete = .ok true ∧ (localTick st inp).1.cached = some c ∧
      (localTick st inp).1.status = some c := by
  simp [localTick, tryWait, drainOnce, h]

/-- One tick preserves the cache/completion invariant. -/
theorem localTick_inv (st : LocalState) (inp : TickInput) (h : LocalInv st) :
    LocalInv (localTick st inp).1 := by
  rcases hc : st.cached with _ | c
  · rcases hr : inp.raw with c2 | _ | _
    · intro hcc
      simp [localTick, tryWait, drainOnce, hc, hr]
    · intro hcc
      have hpre : st.complete = .ok true := by
        simpa [localTick, tryWait, drainOnce, hc, hr] using hcc
      have := h hpre
      simp [hc] at this
    · intro hcc
      simp [localTick, tryWait, hc, hr] at hcc
  · intro _
    simp [(localTick_cached_some st inp c hc).2.1]

/-- One tick preserves an already-true completion flag. -/
theorem localTick_mono (st : LocalState) (inp : TickInput) (h : LocalInv st)
    (ht : st.complete = .ok true) :
    (localTick st inp).1.complete = .ok true := by
  obtain ⟨c, hc⟩ := Option.isSome_iff_exists.mp (h ht)
  exact (localTick_cached_some st inp c hc).1

/-- The invariant holds along any run. -/
theorem localRun_inv (is : List TickInput) :
    ∀ st, LocalInv st → LocalInv (localRun st is) := by
  induction is with
  | nil => intro st h; exact h
  | cons i is ih => intro st h; exact ih _ (localTick_inv st i h)

/-- An already-true completion flag survives any run. -/
theorem localRun_mono (is : List TickInput) :
    ∀ st, LocalInv st → st.complete = .ok true → (localRun st is).complete = .ok true := by
  induction is with
  | nil => intro st _ ht; exact ht
  | cons i is ih =>
    intro st h ht
    exact ih _ (localTick_inv st i h) (localTick_mono st i h ht)

/-- Runs compose over appended input lists. -/
theorem localRun_append (xs ys : List TickInput) :
    ∀ st, localRun st (xs ++ ys) = localRun (localRun st xs) ys := by
  induction xs with
  | nil => intro st; rfl
  | cons x xs ih => intro st; exact ih (localTick st x).1

/-- The remote completion timeline is monotone: the single wait-arm write
is the only one, so a flag observed true (which forces the write to have
happened with an `Ok` wait result) is observed true at every later
instant. -/
theorem sshComplete_mono (connectOk : Bool) (waitRes : Except String Nat) (t u : Nat)
    (htu : t ≤ u) (ht : completeObs (sshComplete connectOk waitRes t) = true) :
    completeObs (sshComplete connectOk waitRes u) = true := by
  unfold sshComplete at ht ⊢
  split at ht
  · rename_i hcond
    rcases waitRes with m | c
    · simp [completeObs] at ht
    · rw [if_pos ⟨hcond.1, le_trans hcond.2 htu⟩]
      rfl
  · simp [completeObs] at ht

/-- The timeline's value after the wait-arm write is the `complete` field
of the thread's end state. -/
theorem sshRun_complete_eq (connectOk : Bool) (producedOut producedErr : List Byte)
    (waitRes : Except String Nat) :
    (sshRun connectOk producedOut producedErr waitRes).complete
      = sshComplete connectOk waitRes 1 := by
  unfold sshRun sshComplete
  cases connectOk
  · simp
  · rcases waitRes with m | c <;> simp

/-- A tick keeps an empty stderr buffer empty. -/
theorem localTick_stderr_nil (st : LocalState) (inp : TickInput) (h : st.stderr = []) :
    ((localTick st inp).1).stderr = [] := by
  simp only [localTick]
  split <;> simp [drainOnce, h]

/-- The state after a single tick from the initial state that observes the
child's exit with `out` bytes pending on stdout: one bounded 1024-byte
read happens, then status and completion are written. -/
theorem localTick_exit_first (out : List Byte) (c : Nat) :
    (localRun initLocal [⟨WaitRaw.exited c, out, []⟩]).complete = .ok true
    ∧ (localRun initLocal [⟨WaitRaw.exited c, out, []⟩]).status = some c
    ∧ (localRun initLocal [⟨WaitRaw.exited c, out, []⟩]).stdout = out.take 1024
    ∧ (localRun initLocal [⟨WaitRaw.exited c, out, []⟩]).outAvail = out.drop 1024 := by
  refine ⟨?_, ?_, ?_, ?_⟩ <;> simp [localRun, localTick, tryWait, drainOnce, initLocal]

/-!  Claim theorems.  -/

/-- C1 is refuted on the code: resolving the Serial chain of the two local
scripts `sA` and `sB` spawns both scripts immediately during
`Task::into_runners`, in declaration order, with no completion wait
anywhere in the launching trace — so script 2 is started without script 1
having reported any terminal state, and both run concurrently. -/
theorem serial_chain_not_sequential :
    ((Task.serial [sA, sB]).into_runners envAllOk).1
      = [Event.writeScript "a", Event.spawnLocal "a", Event.spawnThread "a",
         Event.writeScript "b", Event.spawnLocal "b", Event.spawnThread "b"]
    ∧ launchedSequentially ((Task.serial [sA, sB]).into_runners envAllOk).1 "a" "b" = false := by
  exact ⟨by decide, by decide⟩

/-- C2 is refuted on the code: with 1100 bytes of stdout pending at the
tick that observes the child's exit, the supervisor performs a single
1024-byte bounded read — not a full drain — and then sets `status` and
`complete`, so at the moment completion is set the captured stdout is a
strict 1024-byte prefix and 76 bytes are still unread in the pipe. -/
theorem local_completion_without_full_drain :
    (localRun initLocal [⟨WaitRaw.exited 0, List.replicate 1100 7, []⟩]).complete = .ok true
    ∧ (localRun initLocal [⟨WaitRaw.exited 0, List.replicate 1100 7, []⟩]).status = some 0
    ∧ (localRun initLocal [⟨WaitRaw.exited 0, List.replicate 1100 7, []⟩]).stdout
        = List.replicate 1024 7
    ∧ (localRun initLocal [⟨WaitRaw.exited 0, List.replicate 1100 7, []⟩]).outAvail.length
        = 76 := by
  obtain ⟨h1, h2, h3, h4⟩ := localTick_exit_first (List.replicate 1100 7) 0
  refine ⟨h1, h2, ?_, ?_⟩
  · rw [h3, List.take_replicate, show (1024 : Nat) ⊓ 1100 = 1024 from by norm_num]
  · rw [h4, List.drop_replicate, List.length_replicate]

/-- C3 is refuted on the code: in the job `jBad` whose first task's script
fails to spawn, `Job::run` hits `spawn().expect(...)` and panics on the
calling thread — the fatal outcome is process-wide, the trace stops after
writing the first script, and the healthy sibling task `sA` is never
launched.  Moreover a remote connect failure panics the background thread
with the handle left at `Ok(false)` — not a terminal failure state. -/
theorem launch_failure_aborts_job :
    (jBad.run envBadSpawn).2 = Outcome.fatal "Failed to spawn command"
    ∧ (jBad.run envBadSpawn).1 = [Event.writeScript "bad"]
    ∧ (sshRun false [] [] (.ok 0)).complete = .ok false
    ∧ (sshRun false [] [] (.ok 0)).threadPanicked = true := by
  exact ⟨by decide, by decide, rfl, rfl⟩

/-- C4 counterexample: for the job `jRemote` containing one remote script,
the `Job::run` trace contains the blocking `scp ... .status()` wait on the
upload child process, so the claim that the call never blocks on any child
process is false as stated. -/
theorem job_run_blocks_on_scp : ¬ runNeverBlocks envAllOk jRemote := by
  decide

/-- C4 amended: `Job::run` resolves every task on the calling thread and
returns once all are launched; it never waits for any handle to reach
completion, and when every script of the job is Local it blocks on no
child process at all.  (For Remote scripts, launching blocks on the `scp`
upload subprocess until it exits.) -/
theorem job_run_launch_only (env : LaunchEnv) (j : Job) :
    (∀ e ∈ (j.run env).1, e.isWaitCompletion = false)
    ∧ ((∀ t ∈ j.tasks, ∀ s ∈ t.scripts, s.destination = .localhost) →
        ∀ e ∈ (j.run env).1, e.blocks = false) := by
  constructor
  · intro e he
    obtain ⟨t, _, s, _, he2⟩ := runTasks_mem_events env j.tasks e he
    exact launch_events_no_waitc env s e he2
  · intro hloc e he
    obtain ⟨t, ht, s, hs, he2⟩ := runTasks_mem_events env j.tasks e he
    exact launch_events_local_noblock env s (hloc t ht s hs) e he2

/-- Witness for the amended C4 at the all-local job `jLocal`. -/
theorem job_run_launch_only_w :
    Event.blocks (Event.writeScript "a") = false :=
  (job_run_launch_only envAllOk jLocal).2 (by decide) (Event.writeScript "a") (by decide)

/-- C5: completion is monotonic for every ProgressHandle.  Local handles:
the supervisor loop re-derives its branch from `Child::try_wait`; because
the child's exit status is cached once reaped, any state whose `complete`
field is `Ok(true)` has a cached status, every later tick re-enters the
`Ok(Some(status))` arm and re-writes `Ok(true)`, and the `Err` arm (which
the accessor reports as `false`) is unreachable from there — so a flag
the accessor `CommandRunner::complete` observes `true` after `i` ticks is
observed `true` after any `j ≥ i` ticks of the same run.  Remote handles:
the `from_command_ssh` thread writes the flag at most once (the wait arm),
so over the timeline of its writes an observation of `true` forces that
write to have happened with an `Ok` wait result, every later observation
returns `true`, and the timeline's value after the write is exactly the
thread's end-state `complete` field. -/
theorem completion_monotone (inputs : List TickInput) (i j : Nat)
    (connectOk : Bool) (producedOut producedErr : List Byte)
    (waitRes : Except String Nat) (t u : Nat) (hij : i ≤ j) (htu : t ≤ u) :
    (completeObs (localRun initLocal (inputs.take i)).complete = true →
      completeObs (localRun initLocal (inputs.take j)).complete = true)
    ∧ (completeObs (sshComplete connectOk waitRes t) = true →
      completeObs (sshComplete connectOk waitRes u) = true)
    ∧ (sshRun connectOk producedOut producedErr waitRes).complete
        = sshComplete connectOk waitRes 1 := by
  refine ⟨?_, sshComplete_mono connectOk waitRes t u htu,
    sshRun_complete_eq connectOk producedOut producedErr waitRes⟩
  intro hi
  have htrue : (localRun initLocal (inputs.take i)).complete = .ok true := by
    rcases hcc : (localRun initLocal (inputs.take i)).complete with m | x
    · rw [hcc] at hi
      simp [completeObs] at hi
    · rw [hcc] at hi
      simp only [completeObs] at hi
      rw [hi]
  have hsplit : inputs.take j = inputs.take i ++ (inputs.drop i).take (j - i) := by
    conv_lhs => rw [show j = i + (j - i) by omega]
    rw [List.take_add]
  have hinv : LocalInv (localRun initLocal (inputs.take i)) := by
    refine localRun_inv (inputs.take i) initLocal ?_
    intro hcc
    simp [initLocal] at hcc
  rw [hsplit, localRun_append]
  have hfin := localRun_mono ((inputs.drop i).take (j - i)) _ hinv htrue
  rw [hfin]
  rfl

/-- Witness for C5: in a local run whose first tick observes the exit, the
flag observed true after 1 tick is still observed true after 2 ticks; and
a remote flag observed true after the wait-arm write is still true at a
later observation instant. -/
theorem completion_monotone_w :
    completeObs (localRun initLocal
      ([⟨WaitRaw.exited 0, [], []⟩, ⟨WaitRaw.running, [], []⟩].take 2)).complete = true
    ∧ completeObs (sshComplete true (.ok 0) 2) = true :=
  ⟨(completion_monotone [⟨WaitRaw.exited 0, [], []⟩, ⟨WaitRaw.running, [], []⟩] 1 2
      true [] [] (.ok 0) 1 2 (by decide) (by decide)).1 (by decide),
   (completion_monotone [⟨WaitRaw.exited 0, [], []⟩, ⟨WaitRaw.running, [], []⟩] 1 2
      true [] [] (.ok 0) 1 2 (by decide) (by decide)).2.1 (by decide)⟩

/-- C6 is refuted on the code: for a remote execution that produced 1100
stdout bytes by its termination instant, the stdout drain task of
`from_command_ssh` — even when given maximal progress — appends only its
single 1024-byte read, so the buffer misses 76 produced bytes when
`complete` is set to `Ok(true)`; and in the wait arm's own program order
the completion write precedes stopping the drain tasks, which are
`abort`ed rather than flushed. -/
theorem remote_output_dropped_at_completion :
    (sshRun true (List.replicate 1100 5) [] (.ok 0)).complete = .ok true
    ∧ (sshRun true (List.replicate 1100 5) [] (.ok 0)).stdout = List.replicate 1024 5
    ∧ 1024 < 1100
    ∧ sshWaitOkEffects.indexOf SshEffect.setComplete
        < sshWaitOkEffects.indexOf SshEffect.abortDrain := by
  refine ⟨rfl, ?_, by norm_num, by decide⟩
  show sshDrainAppend (List.replicate 1100 5) = List.replicate 1024 5
  have hmin : (1024 : Nat) ⊓ 1100 = 1024 := by norm_num
  simp only [sshDrainAppend, List.take_replicate, List.length_replicate, hmin, Nat.sub_self,
    List.replicate_zero, List.append_nil]

/-- C7: resolving a task yields exactly one handle per script — the
runner list of a successful `Task::into_runners` maps back onto the task's
script list in declaration order, so its length is the script count. -/
theorem into_runners_handle_count (env : LaunchEnv) (t : Task) (tr : List Event)
    (rs : List Runner) (h : t.into_runners env = (tr, .ok rs)) :
    rs.map Runner.script = t.scripts ∧ rs.length = t.scripts.length := by
  have key : rs.map Runner.script = t.scripts := by
    refine launchAll_ok_scripts env t.scripts tr rs ?_
    rw [← into_runners_eq_launchAll]
    exact h
  refine ⟨key, ?_⟩
  rw [← key]
  simp

/-- Witness for C7 at a Serial chain of two scripts. -/
theorem into_runners_handle_count_w :
    [Runner.mk sA, Runner.mk sB].map Runner.script = (Task.serial [sA, sB]).scripts
    ∧ [Runner.mk sA, Runner.mk sB].length = (Task.serial [sA, sB]).scripts.length :=
  into_runners_handle_count envAllOk (Task.serial [sA, sB])
    [Event.writeScript "a", Event.spawnLocal "a", Event.spawnThread "a",
     Event.writeScript "b", Event.spawnLocal "b", Event.spawnThread "b"]
    [Runner.mk sA, Runner.mk sB] (by decide)

/-- C8: for a locally executed script the handle's stderr buffer is the
empty byte string at every observation point, whatever the process writes
to stderr: the background loop hands the zero-length shared vector itself
to `read` as the destination, so zero bytes are ever read, and it then
appends zero bytes of the untouched buffer — the buffer stays empty over
every run. -/
theorem stderr_stays_empty (inputs : List TickInput) :
    (localRun initLocal inputs).stderr = [] := by
  have gen : ∀ (is : List TickInput) (st : LocalState), st.stderr = [] →
      (localRun st is).stderr = [] := by
    intro is
    induction is with
    | nil => intro st hst; exact hst
    | cons i is ih => intro st hst; exact ih _ (localTick_stderr_nil st i hst)
  exact gen inputs initLocal rfl

/-- C9: the Environment policy has no effect: `with_shell` returns the
same interpreter for `None` and `Current`, the local command built by
`try_into_runner` is identical under either policy and never clears or
overrides the child's environment variables, and the remote invocation
string is likewise identical. -/
theorem environment_no_effect (sh : Shell) (tmp : String) (s : Script) :
    Environment.noEnv.with_shell sh = Environment.current.with_shell sh
    ∧ Script.localCommand { s with environment := .noEnv } tmp
        = Script.localCommand { s with environment := .current } tmp
    ∧ (Script.localCommand s tmp).map (fun c => (c.envCleared, c.envOverrides))
        = .ok (false, [])
    ∧ Script.remoteInvocation { s with environment := .noEnv }
        = Script.remoteInvocation { s with environment := .current } := by
  obtain ⟨n, d, e, sh2, b⟩ := s
  refine ⟨rfl, rfl, ?_, ?_⟩
  · cases e <;> cases sh2 <;> rfl
  · cases d <;> cases sh2 <;> rfl

/-- C10: the supervisor loop of `from_command` has no exit condition: the
body's every arm falls through to the sleep and continues (`LoopCtl` has
no stop), and once the child's exit status is cached each further tick
re-reads stdout and re-writes both the `status` and `complete` fields. -/
theorem supervisor_loop_never_exits (st : LocalState) (inp : TickInput) (c : Nat)
    (h : st.cached = some c) :
    (localTick st inp).2.ctl = LoopCtl.next
    ∧ (localTick st inp).2.readStdout = true
    ∧ (localTick st inp).2.wroteStatus = true
    ∧ (localTick st inp).2.wroteComplete = true
    ∧ (localTick st inp).1.status = some c
    ∧ (localTick st inp).1.complete = .ok true := by
  simp [localTick, tryWait, drainOnce, h]

/-- Witness for C10 at a post-exit state. -/
theorem supervisor_loop_never_exits_w :
    (localTick { initLocal with cached := some 0 } ⟨WaitRaw.running, [], []⟩).2.ctl = LoopCtl.next
    ∧ (localTick { initLocal with cached := some 0 } ⟨WaitRaw.running, [], []⟩).2.readStdout = true
    ∧ (localTick { initLocal with cached := some 0 }
        ⟨WaitRaw.running, [], []⟩).2.wroteStatus = true
    ∧ (localTick { initLocal with cached := some 0 }
        ⟨WaitRaw.running, [], []⟩).2.wroteComplete = true
    ∧ (localTick { initLocal with cached := some 0 } ⟨WaitRaw.running, [], []⟩).1.status = some 0
    ∧ (localTick { initLocal with cached := some 0 }
        ⟨WaitRaw.running, [], []⟩).1.complete = .ok true :=
  supervisor_loop_never_exits { initLocal with cached := some 0 } ⟨WaitRaw.running, [], []⟩ 0 rfl

end Checkmate
